import Mathlib

/- Verification of the buyer negotiation policy and test driver implemented in
   negotiation_agent_sanjay.py (class YourBuyerAgent, class MockSellerAgent and
   run_negotiation_test).

   Embedding conventions:
   * Python ints are ℤ.
   * Python float literals (0.85, 1.15, ...) denote exact rationals, and all
     float arithmetic of the source is modelled exactly: int(x * c) for a
     float literal c = num/den is pyMulDiv x num den, the product x * num
     divided by den rounding toward zero, and a comparison y >= x * c is the
     cross-multiplied integer comparison x * num ≤ y * den.  The seller
     analysis scores (values of the form min(1, k/3), min(1, k/2) and the
     initial 0.5) are stored scaled by 6, which represents every value the
     program constructs exactly as an integer; the comparisons score > 0.6
     and score > 0.7 become 36 < 10*score6 and 42 < 10*score6.
   * A free-text message influences the decision logic only through the two
     indicator counts computed in update_seller_analysis (case-insensitive
     substring hits of the fixed flexibility / urgency phrase lists).  A
     message is therefore embedded as that pair of counts (MsgFeatures); for
     every literal message template of the mock seller the counts are recorded
     below next to its text.  Numbers interpolated into a template (digits and
     comma grouping) contain no indicator phrase, so each template has
     constant counts.
   * context.messages, the generated message strings (random.choice over
     templates) and the derived reporting fields of the result dict (savings,
     savings_pct, below_market_pct, conversation, efficiency_score) are
     presentation only: they are never read by the decision logic.  They are
     not modelled.  The embedded result record instead also exposes the final
     your_offers history and whether the session ended in the buyer's
     ACCEPTED branch, i.e. the parts of the final driver state that the
     specified properties are about. -/

/-- Python int(x * (num/den)): the exact product truncated toward zero.  This
is the exact-rational model of the source's int applied to x times a float
literal num/den. -/
def pyMulDiv (x num den : ℤ) : ℤ := (x * num).tdiv den

/-- Product being negotiated (dataclass Product; the attributes dict is an
opaque payload never read by the decision logic and is omitted). -/
structure Product where
  name : String
  category : String
  quantity : ℤ
  quality_grade : String
  origin : String
  base_market_price : ℤ
deriving DecidableEq

/-- Current negotiation state (dataclass NegotiationContext).  The messages
list is write-only in the source and not modelled. -/
structure NegotiationContext where
  product : Product
  your_budget : ℤ
  current_round : ℤ
  seller_offers : List ℤ
  your_offers : List ℤ
deriving DecidableEq

/-- enum DealStatus. -/
inductive DealStatus where
  | ONGOING
  | ACCEPTED
  | REJECTED
  | TIMEOUT
deriving DecidableEq

/-- The seller_analysis dict of YourBuyerAgent (communication_style is never
read and omitted).  The two scores are stored scaled by 6:
flexibility_score6 is 6 times the float flexibility_score, urgency_level6 is
6 times the float urgency_level, both exact integers for every value the
program constructs. -/
structure SellerAnalysis where
  flexibility_score6 : ℤ
  urgency_level6 : ℤ
  concession_pattern : List ℤ
deriving DecidableEq

/-- Initial seller_analysis set in YourBuyerAgent.__init__:
flexibility_score 0.5 (scaled: 3), urgency_level 0.0 (scaled: 0). -/
def initialAnalysis : SellerAnalysis := ⟨3, 0, []⟩

/-- A seller message, embedded as the number of flexibility-indicator hits
and urgency-indicator hits that update_seller_analysis counts in its
lowercased text. -/
structure MsgFeatures where
  flexCount : ℕ
  urgCount : ℕ
deriving DecidableEq

/-- strategy_params["quality_premiums"].get(grade, 1.0), scaled by 100
(A: 1.1, Export: 1.15, B: 0.95, default 1.0). -/
def quality_premiums100 (grade : String) : ℤ :=
  if grade = "A" then 110
  else if grade = "Export" then 115
  else if grade = "B" then 95
  else 100

/-- YourBuyerAgent.update_seller_analysis.  flexibility_score and
urgency_level are recomputed from scratch from the current message:
min(1.0, flexibility_hits / 3) and min(1.0, urgency_hits / 2), stored scaled
by 6 as min 6 (2*hits) and min 6 (3*hits).  The concession pattern appends
context.seller_offers[-2] - seller_price when at least two seller offers
exist. -/
def update_seller_analysis (a : SellerAnalysis) (seller_price : ℤ)
    (msg : MsgFeatures) (ctx : NegotiationContext) : SellerAnalysis :=
  let pat :=
    if 1 < ctx.seller_offers.length then
      a.concession_pattern ++
        [(ctx.seller_offers.getD (ctx.seller_offers.length - 2) 0) - seller_price]
    else a.concession_pattern
  { flexibility_score6 := min 6 (2 * (msg.flexCount : ℤ))
    urgency_level6 := min 6 (3 * (msg.urgCount : ℤ))
    concession_pattern := pat }

/-- YourBuyerAgent.generate_opening_offer, price component: int(market_price
* 0.70), times 1.05 (truncated) for the premium origins, capped at
int(budget * 0.85).  The quality multiplier is looked up but not folded into
the price; the crafted opening message is presentation and omitted. -/
def generate_opening_offer (ctx : NegotiationContext) : ℤ :=
  let market_price := ctx.product.base_market_price
  let _quality_multiplier := quality_premiums100 ctx.product.quality_grade
  let base_opening := pyMulDiv market_price 70 100
  let base_opening :=
    if ctx.product.origin = "Ratnagiri" ∨ ctx.product.origin = "Alphonso" then
      pyMulDiv base_opening 105 100
    else base_opening
  min base_opening (pyMulDiv ctx.your_budget 85 100)

/-- YourBuyerAgent.calculate_dynamic_threshold.  The threshold fraction is
kept in hundredths: 0.96 base, overridden to 0.98 for round >= 8 and 0.97
for round >= 6, plus 0.01 when flexibility_score > 0.6. -/
def calculate_dynamic_threshold (a : SellerAnalysis) (ctx : NegotiationContext) : ℤ :=
  let base_threshold : ℤ := 96
  let base_threshold :=
    if 8 ≤ ctx.current_round then 98
    else if 6 ≤ ctx.current_round then 97
    else base_threshold
  let base_threshold :=
    if 36 < 10 * a.flexibility_score6 then base_threshold + 1 else base_threshold
  pyMulDiv ctx.your_budget base_threshold 100

/-- YourBuyerAgent.calculate_strategic_counter, offer component (the returned
confidence value only flavors the crafted message and is omitted).  The
concession rate 0.15, multiplied by 1.2 when flexibility > 0.6 else by 0.8
when urgency > 0.7, and by urgency_multiplier 1.3 when round >= 7, is kept as
the exact fraction rate_num / rate_den. -/
def calculate_strategic_counter (a : SellerAnalysis) (ctx : NegotiationContext)
    (seller_price : ℤ) : ℤ :=
  let last_offer :=
    match ctx.your_offers.getLast? with
    | some o => o
    | none => pyMulDiv ctx.your_budget 7 10
  let gap : ℤ := seller_price - last_offer
  let rate_num : ℤ := 15
  let rate_den : ℤ := 100
  let rate_num :=
    if 36 < 10 * a.flexibility_score6 then rate_num * 12
    else if 42 < 10 * a.urgency_level6 then rate_num * 8
    else rate_num
  let rate_den :=
    if 36 < 10 * a.flexibility_score6 then rate_den * 10
    else if 42 < 10 * a.urgency_level6 then rate_den * 10
    else rate_den
  let rate_num := if 7 ≤ ctx.current_round then rate_num * 13 else rate_num
  let rate_den := if 7 ≤ ctx.current_round then rate_den * 10 else rate_den
  let concession_amount := pyMulDiv gap rate_num rate_den
  let min_progress := pyMulDiv ctx.your_budget 15 1000
  let concession_amount := max concession_amount min_progress
  let new_offer := last_offer + concession_amount
  let safe_offer := min new_offer (pyMulDiv ctx.your_budget 95 100)
  if safe_offer ≤ last_offer then
    min (last_offer + min_progress) (pyMulDiv ctx.your_budget 95 100)
  else safe_offer

/-- YourBuyerAgent.make_final_attempt, (status, price) component. -/
def make_final_attempt (ctx : NegotiationContext) : DealStatus × ℤ :=
  let last_offer := ctx.your_offers.getLast?.getD 0
  let budget_room := pyMulDiv ctx.your_budget 98 100 - last_offer
  if 0 < budget_room then
    (DealStatus.ONGOING,
      min (last_offer + pyMulDiv budget_room 8 10) (pyMulDiv ctx.your_budget 98 100))
  else
    (DealStatus.ONGOING, 0)

/-- YourBuyerAgent.respond_to_seller_offer, (status, price) component together
with the mutated seller_analysis state. -/
def respond_to_seller_offer (a : SellerAnalysis) (ctx : NegotiationContext)
    (seller_price : ℤ) (msg : MsgFeatures) : SellerAnalysis × DealStatus × ℤ :=
  let a := update_seller_analysis a seller_price msg ctx
  if seller_price ≤ pyMulDiv ctx.your_budget 85 100 then
    (a, DealStatus.ACCEPTED, seller_price)
  else
    let walk_threshold := calculate_dynamic_threshold a ctx
    if walk_threshold ≤ seller_price then
      if 8 ≤ ctx.current_round ∧ seller_price ≤ pyMulDiv ctx.your_budget 98 100 then
        (a, make_final_attempt ctx)
      else
        (a, DealStatus.ONGOING, 0)
    else
      (a, DealStatus.ONGOING, calculate_strategic_counter a ctx seller_price)

/-- class MockSellerAgent (round_count is written but never read). -/
structure MockSellerAgent where
  min_price : ℤ
  personality : String
deriving DecidableEq

/-- Indicator counts of the near-deadline counter template
"This is truly my final offer: N. Take it or leave it.":
flexibility 0; urgency 2 ("final", "take it or leave"). -/
def finalOfferMsg : MsgFeatures := ⟨0, 2⟩

/-- Indicator counts of the aggressive counter template
"That's far too low! These are premium products. N is my best price.":
flexibility 0; urgency 1 ("best price"). -/
def aggressiveMsg : MsgFeatures := ⟨0, 1⟩

/-- Indicator counts of the flexible counter template
"I appreciate your offer. I can come down to N. What do you think?":
flexibility 0; urgency 0. -/
def flexibleMsg : MsgFeatures := ⟨0, 0⟩

/-- Indicator counts of the standard counter template
"I can consider N for this quality.": flexibility 1 ("consider"); urgency 0. -/
def standardMsg : MsgFeatures := ⟨1, 0⟩

/-- Indicator counts of the acceptance templates ("Excellent offer! ..." and
"Given our extensive discussion, I can accept ...").  They end the session,
so they are never fed back into update_seller_analysis. -/
def sellerAcceptMsg : MsgFeatures := ⟨0, 0⟩

/-- MockSellerAgent.get_opening_price, price component: the market price
times the personality multiplier 1.4 / 1.6 / 1.3 (dict lookup, default
1.4). -/
def get_opening_price (s : MockSellerAgent) (product : Product) : ℤ :=
  let multiplier10 : ℤ :=
    if s.personality = "standard" then 14
    else if s.personality = "aggressive" then 16
    else if s.personality = "flexible" then 13
    else 14
  pyMulDiv product.base_market_price multiplier10 10

/-- MockSellerAgent.respond_to_buyer: (counter price, message, accepts).
The comparisons buyer_offer >= min_price * 1.15 and >= min_price * 1.05 are
cross-multiplied by 100. -/
def respond_to_buyer (s : MockSellerAgent) (buyer_offer : ℤ)
    (round_num : ℤ) : ℤ × MsgFeatures × Bool :=
  if s.min_price * 115 ≤ buyer_offer * 100 then
    (buyer_offer, sellerAcceptMsg, true)
  else if 8 ≤ round_num then
    if s.min_price * 105 ≤ buyer_offer * 100 then
      (buyer_offer, sellerAcceptMsg, true)
    else
      (max s.min_price (pyMulDiv buyer_offer 103 100), finalOfferMsg, false)
  else if s.personality = "aggressive" then
    (max s.min_price (pyMulDiv buyer_offer 12 10), aggressiveMsg, false)
  else if s.personality = "flexible" then
    (max s.min_price (pyMulDiv buyer_offer 112 100), flexibleMsg, false)
  else
    (max s.min_price (pyMulDiv buyer_offer 115 100), standardMsg, false)

/-- Final state of a driver session: the fields of the result dict that are
negotiation state (deal_made, final_price, rounds = context.current_round)
plus the final buyer offer history and whether the loop ended in the buyer's
ACCEPTED branch. -/
structure NegotiationResult where
  deal_made : Bool
  final_price : Option ℤ
  rounds : ℤ
  your_offers : List ℤ
  buyer_accepted : Bool
deriving DecidableEq

/-- One iteration of the for-loop body of run_negotiation_test at loop index
round_num: either the loop ends with a result (inl) or it continues with the
updated analysis, context, seller price and seller message (inr). -/
def loopStep (seller : MockSellerAgent) (round_num : ℕ) (a : SellerAnalysis)
    (ctx : NegotiationContext) (seller_price : ℤ) (seller_msg : MsgFeatures) :
    NegotiationResult ⊕ (SellerAnalysis × NegotiationContext × ℤ × MsgFeatures) :=
  let ctx := { ctx with current_round := (round_num : ℤ) + 1 }
  let step :=
    if round_num = 0 then (a, DealStatus.ONGOING, generate_opening_offer ctx)
    else respond_to_seller_offer a ctx seller_price seller_msg
  let a := step.1
  let status := step.2.1
  let buyer_offer := step.2.2
  let ctx :=
    if 0 < buyer_offer then
      { ctx with your_offers := ctx.your_offers ++ [buyer_offer] }
    else ctx
  if status = DealStatus.ACCEPTED then
    Sum.inl ⟨true, some seller_price, ctx.current_round, ctx.your_offers, true⟩
  else if buyer_offer = 0 then
    Sum.inl ⟨false, none, ctx.current_round, ctx.your_offers, false⟩
  else
    let sellerTurn := respond_to_buyer seller buyer_offer ((round_num : ℤ) + 1)
    let next_price := sellerTurn.1
    let next_msg := sellerTurn.2.1
    let seller_accepts := sellerTurn.2.2
    if seller_accepts then
      Sum.inl ⟨true, some buyer_offer, ctx.current_round, ctx.your_offers, false⟩
    else
      Sum.inr (a, { ctx with seller_offers := ctx.seller_offers ++ [next_price] },
        next_price, next_msg)

/-- The for round_num in range(10) loop of run_negotiation_test, with rem
iterations left, starting at loop index round_num. -/
def runLoop (seller : MockSellerAgent) : ℕ → ℕ → SellerAnalysis →
    NegotiationContext → ℤ → MsgFeatures → NegotiationResult
  | 0, _, _, ctx, _, _ => ⟨false, none, ctx.current_round, ctx.your_offers, false⟩
  | rem + 1, round_num, a, ctx, seller_price, seller_msg =>
    match loopStep seller round_num a ctx seller_price seller_msg with
    | Sum.inl r => r
    | Sum.inr (a', ctx', sp', sm') => runLoop seller rem (round_num + 1) a' ctx' sp' sm'

/-- run_negotiation_test for YourBuyerAgent.  openFeat is the indicator-count
content of the seller's opening message (it interpolates the product name, so
its counts are left arbitrary; the loop overwrites seller_msg before the
first respond_to_seller_offer call, so it is never consumed). -/
def run_negotiation_test (product : Product) (buyer_budget seller_min : ℤ)
    (seller_personality : String) (openFeat : MsgFeatures) : NegotiationResult :=
  let seller : MockSellerAgent := ⟨seller_min, seller_personality⟩
  let opening_price := get_opening_price seller product
  let ctx : NegotiationContext :=
    { product := product, your_budget := buyer_budget, current_round := 0,
      seller_offers := [opening_price], your_offers := [] }
  runLoop seller 10 0 initialAnalysis ctx opening_price openFeat

/-! Specification-side definitions.  For the refinement claims the spec text
is transcribed into its own definition, to be proved equal to the embedded
source function. -/

/-- Spec wording of the strategic counter: the counter equals the last buyer
offer (defaulting to int(budget*0.70)) plus a concession of int(gap*rate)
floored at int(budget*0.015), where rate is 0.15 multiplied by 1.2 when
flexibility > 0.6, else by 0.8 when urgency > 0.7 (mutually exclusive,
flexibility taking precedence), and additionally by 1.3 when the round is at
least 7; the sum is clamped to at most int(budget*0.95), and when the clamped
value does not exceed the previous offer it is forced to the previous offer
plus the minimum progress, again clamped at int(budget*0.95).  The rate is
the exact fraction (15 * a * c) / (100 * b * d) where a/b is the behaviour
adjustment and c/d the deadline adjustment; the scores are scaled by 6 as in
SellerAnalysis. -/
def spec_strategic_counter (flex6 urg6 : ℤ) (round budget : ℤ)
    (last_buyer_offer : Option ℤ) (seller_price : ℤ) : ℤ :=
  let last := last_buyer_offer.getD (pyMulDiv budget 7 10)
  let gap : ℤ := seller_price - last
  let behaviour_num : ℤ := if 36 < 10 * flex6 then 12 else if 42 < 10 * urg6 then 8 else 1
  let behaviour_den : ℤ := if 36 < 10 * flex6 then 10 else if 42 < 10 * urg6 then 10 else 1
  let deadline_num : ℤ := if 7 ≤ round then 13 else 1
  let deadline_den : ℤ := if 7 ≤ round then 10 else 1
  let min_progress := pyMulDiv budget 15 1000
  let concession :=
    max (pyMulDiv gap (15 * behaviour_num * deadline_num) (100 * behaviour_den * deadline_den))
      min_progress
  let clamped := min (last + concession) (pyMulDiv budget 95 100)
  if clamped ≤ last then min (last + min_progress) (pyMulDiv budget 95 100)
  else clamped

/-- Spec wording of the dynamic walk-away ceiling: int(budget * t) where t is
0.96, overridden to 0.98 when the round is at least 8 and to 0.97 when the
round is at least 6, with 0.01 added when flexibility exceeds 0.6 (t kept in
hundredths; flexibility scaled by 6). -/
def spec_threshold (flex6 : ℤ) (round budget : ℤ) : ℤ :=
  pyMulDiv budget
    ((if 8 ≤ round then 98 else if 6 ≤ round then 97 else 96) +
      (if 36 < 10 * flex6 then 1 else 0)) 100

/-- Spec wording of the opening offer: the minimum of int(market_price*0.70)
— multiplied by 1.05 and truncated for a premium origin — and
int(budget*0.85). -/
def spec_opening (market_price budget : ℤ) (premium_origin : Bool) : ℤ :=
  min
    (if premium_origin then pyMulDiv (pyMulDiv market_price 70 100) 105 100
      else pyMulDiv market_price 70 100)
    (pyMulDiv budget 85 100)

/-! Concrete fixtures used by witnesses and counterexamples. -/

/-- A product with a non-premium origin and the given market price. -/
def gujaratProduct (market_price : ℤ) : Product :=
  ⟨"Kesar Mangoes", "Mangoes", 150, "A", "Gujarat", market_price⟩

/-- Budget 100000, round 3, one seller offer on record, last buyer offer
90000. -/
def ctxA : NegotiationContext :=
  ⟨gujaratProduct 200000, 100000, 3, [150000], [90000]⟩

/-- Budget 100000, round 9, last buyer offer 90000 (the final-phase scenario
of the spec). -/
def ctxRound9 : NegotiationContext :=
  ⟨gujaratProduct 200000, 100000, 9, [150000, 96000], [90000]⟩

/-- Budget 300000, market price 200000, round 1 (the opening-offer scenario
of the spec). -/
def ctxOpening : NegotiationContext :=
  ⟨gujaratProduct 200000, 300000, 1, [], []⟩

/-- Budget 100000 with the last buyer offer already at 99000, above
int(budget * 0.98): the final attempt has no room. -/
def ctxFullBudget : NegotiationContext :=
  ⟨gujaratProduct 200000, 100000, 9, [150000], [99000]⟩

/-- The forward-progress property of a finished session: the recorded buyer
offers are non-decreasing, and the offers recorded during the first seven
rounds (all of them counters at rounds below 8, except that a buyer
acceptance records the accepted seller price as the final entry, which the
claim excludes) are strictly increasing. -/
def offers_ok (r : NegotiationResult) : Prop :=
  List.Chain' (· ≤ ·) r.your_offers ∧
  List.Chain' (· < ·)
    ((if r.buyer_accepted then r.your_offers.dropLast else r.your_offers).take 7)

/-- Invariant of the driver loop at the start of iteration i (one buyer offer
recorded per completed round; the current seller price is the mock seller's
counter to the last buyer offer; all messages on the wire carry at most one
flexibility indicator, so the walk-away ceiling never gets the +0.01 bump;
an over-cap last offer, which only a final attempt can produce, forces the
next seller counter to reach int(budget*0.98)). -/
structure LoopInv (seller : MockSellerAgent) (b : ℤ) (i : ℕ)
    (ctx : NegotiationContext) (sp : ℤ) (sm : MsgFeatures) : Prop where
  hbud : ctx.your_budget = b
  hb700 : 700 ≤ b
  hi : 1 ≤ i
  hlen : ctx.your_offers.length = i
  hpos : ∀ x ∈ ctx.your_offers, 0 < x
  hchain : List.Chain' (· ≤ ·) ctx.your_offers
  hstrict : List.Chain' (· < ·) (ctx.your_offers.take 7)
  hlast_cap : i ≤ 7 → ctx.your_offers.getLast?.getD 0 ≤ pyMulDiv b 95 100
  hover : pyMulDiv b 95 100 < ctx.your_offers.getLast?.getD 0 →
    pyMulDiv b 98 100 ≤ pyMulDiv (ctx.your_offers.getLast?.getD 0) 103 100
  hsp : (8 ≤ i ∧ sp = max seller.min_price
          (pyMulDiv (ctx.your_offers.getLast?.getD 0) 103 100)) ∨
    (i ≤ 7 ∧
      (sp = max seller.min_price (pyMulDiv (ctx.your_offers.getLast?.getD 0) 12 10) ∨
       sp = max seller.min_price (pyMulDiv (ctx.your_offers.getLast?.getD 0) 112 100) ∨
       sp = max seller.min_price (pyMulDiv (ctx.your_offers.getLast?.getD 0) 115 100)))
  hmin : 2 ≤ i → seller.min_price < pyMulDiv b 96 100
  hsm : sm.flexCount ≤ 1

/-! Basic facts about pyMulDiv. -/

theorem pyMulDiv_eq_ediv {x num den : ℤ} (h : 0 ≤ x * num) (hd : 0 ≤ den) :
    pyMulDiv x num den = (x * num) / den :=
  Int.tdiv_eq_ediv h hd

/-- Division bounds: den * (x*num/den) ≤ x*num < den * (x*num/den) + den. -/
theorem pyMulDiv_bounds {x num den : ℤ} (h : 0 ≤ x * num) (hd : 0 < den) :
    den * pyMulDiv x num den ≤ x * num ∧
      x * num < den * pyMulDiv x num den + den := by
  rw [pyMulDiv_eq_ediv h hd.le]
  have h1 := Int.emod_nonneg (x * num) hd.ne'
  have h2 := Int.emod_lt_of_pos (x * num) hd
  have h3 := Int.ediv_add_emod (x * num) den
  constructor <;> linarith

theorem pyMulDiv_nonneg {x num den : ℤ} (h : 0 ≤ x * num) (hd : 0 ≤ den) :
    0 ≤ pyMulDiv x num den := by
  rw [pyMulDiv_eq_ediv h hd]
  exact Int.ediv_nonneg h hd

/-- For 0 ≤ num ≤ den and 0 ≤ x, int(x * (num/den)) ≤ x. -/
theorem pyMulDiv_le_self {x num den : ℤ} (hx : 0 ≤ x) (h0 : 0 ≤ num)
    (h1 : num ≤ den) (hd : 0 < den) : pyMulDiv x num den ≤ x := by
  have hb := pyMulDiv_bounds (mul_nonneg hx h0) hd
  nlinarith [hb.1, hb.2]

theorem pyMulDiv_mono_left {x y num den : ℤ} (h : x ≤ y) (hx : 0 ≤ x)
    (h0 : 0 ≤ num) (hd : 0 ≤ den) :
    pyMulDiv x num den ≤ pyMulDiv y num den := by
  rw [pyMulDiv_eq_ediv (mul_nonneg hx h0) hd,
    pyMulDiv_eq_ediv (mul_nonneg (hx.trans h) h0) hd]
  rcases hd.lt_or_eq with hd' | hd'
  · exact Int.ediv_le_ediv hd' (mul_le_mul_of_nonneg_right h h0)
  · simp [← hd']

theorem pyMulDiv_mono_num {x num num' den : ℤ} (h : num ≤ num') (hx : 0 ≤ x)
    (h0 : 0 ≤ num) (hd : 0 ≤ den) :
    pyMulDiv x num den ≤ pyMulDiv x num' den := by
  rw [pyMulDiv_eq_ediv (mul_nonneg hx h0) hd,
    pyMulDiv_eq_ediv (mul_nonneg hx (h0.trans h)) hd]
  rcases hd.lt_or_eq with hd' | hd'
  · exact Int.ediv_le_ediv hd' (mul_le_mul_of_nonneg_left h hx)
  · simp [← hd']

/-- C1: every buyer-side price computation respects its budget fraction cap,
and each cap is at most the budget itself, so no buyer-proposed price ever
exceeds the budget. -/
theorem budget_ceiling_safety (a : SellerAnalysis) (ctx : NegotiationContext)
    (seller_price : ℤ) (hb : 0 ≤ ctx.your_budget) :
    generate_opening_offer ctx ≤ pyMulDiv ctx.your_budget 85 100 ∧
    pyMulDiv ctx.your_budget 85 100 ≤ ctx.your_budget ∧
    calculate_strategic_counter a ctx seller_price ≤ pyMulDiv ctx.your_budget 95 100 ∧
    pyMulDiv ctx.your_budget 95 100 ≤ ctx.your_budget ∧
    (make_final_attempt ctx).2 ≤ pyMulDiv ctx.your_budget 98 100 ∧
    pyMulDiv ctx.your_budget 98 100 ≤ ctx.your_budget := by
  refine ⟨min_le_right _ _, pyMulDiv_le_self hb (by norm_num) (by norm_num) (by norm_num),
    ?_, pyMulDiv_le_self hb (by norm_num) (by norm_num) (by norm_num),
    ?_, pyMulDiv_le_self hb (by norm_num) (by norm_num) (by norm_num)⟩
  · simp only [calculate_strategic_counter]
    split_ifs <;> exact min_le_right _ _
  · simp only [make_final_attempt]
    split_ifs with h
    · exact min_le_right _ _
    · exact pyMulDiv_nonneg (mul_nonneg hb (by norm_num)) (by norm_num)

theorem budget_ceiling_safety_witness :
    (0 : ℤ) ≤ ctxA.your_budget ∧
    (generate_opening_offer ctxA ≤ pyMulDiv ctxA.your_budget 85 100 ∧
      pyMulDiv ctxA.your_budget 85 100 ≤ ctxA.your_budget ∧
      calculate_strategic_counter initialAnalysis ctxA 96000 ≤
        pyMulDiv ctxA.your_budget 95 100 ∧
      pyMulDiv ctxA.your_budget 95 100 ≤ ctxA.your_budget ∧
      (make_final_attempt ctxA).2 ≤ pyMulDiv ctxA.your_budget 98 100 ∧
      pyMulDiv ctxA.your_budget 98 100 ≤ ctxA.your_budget) :=
  ⟨by decide, budget_ceiling_safety initialAnalysis ctxA 96000 (by decide)⟩

theorem pyMulDiv_85_lt_96 {b : ℤ} (hb : 10 ≤ b) :
    pyMulDiv b 85 100 < pyMulDiv b 96 100 := by
  have h1 := pyMulDiv_bounds (show (0:ℤ) ≤ b * 85 by nlinarith)
    (show (0:ℤ) < 100 by norm_num)
  have h2 := pyMulDiv_bounds (show (0:ℤ) ≤ b * 96 by nlinarith)
    (show (0:ℤ) < 100 by norm_num)
  omega

/-- The dynamic walk-away ceiling is at least int(budget * 0.96). -/
theorem dynamic_threshold_ge (a : SellerAnalysis) (ctx : NegotiationContext)
    (hb : 0 ≤ ctx.your_budget) :
    pyMulDiv ctx.your_budget 96 100 ≤ calculate_dynamic_threshold a ctx := by
  simp only [calculate_dynamic_threshold]
  split_ifs <;>
    exact pyMulDiv_mono_num (by norm_num) hb (by norm_num) (by norm_num)

/-- C3: a seller price at or beneath int(budget * 0.85) is accepted at that
exact price; in particular int(budget * 0.80) is accepted whatever the round
is, for a nonnegative budget. -/
theorem auto_accept_below_threshold (a : SellerAnalysis)
    (ctx : NegotiationContext) (seller_price : ℤ) (msg : MsgFeatures) :
    (seller_price ≤ pyMulDiv ctx.your_budget 85 100 →
      (respond_to_seller_offer a ctx seller_price msg).2 =
        (DealStatus.ACCEPTED, seller_price)) ∧
    (0 ≤ ctx.your_budget →
      (respond_to_seller_offer a ctx (pyMulDiv ctx.your_budget 80 100) msg).2 =
        (DealStatus.ACCEPTED, pyMulDiv ctx.your_budget 80 100)) := by
  constructor
  · intro h
    simp only [respond_to_seller_offer, if_pos h]
  · intro hb
    have h : pyMulDiv ctx.your_budget 80 100 ≤ pyMulDiv ctx.your_budget 85 100 :=
      pyMulDiv_mono_num (by norm_num) hb (by norm_num) (by norm_num)
    simp only [respond_to_seller_offer, if_pos h]

theorem auto_accept_below_threshold_witness :
    ((80000 : ℤ) ≤ pyMulDiv ctxA.your_budget 85 100 ∧
      (respond_to_seller_offer initialAnalysis ctxA 80000 ⟨0, 0⟩).2 =
        (DealStatus.ACCEPTED, 80000)) ∧
    (0 ≤ ctxA.your_budget ∧
      (respond_to_seller_offer initialAnalysis ctxA
          (pyMulDiv ctxA.your_budget 80 100) ⟨0, 0⟩).2 =
        (DealStatus.ACCEPTED, pyMulDiv ctxA.your_budget 80 100)) :=
  ⟨⟨by decide, (auto_accept_below_threshold initialAnalysis ctxA 80000 ⟨0, 0⟩).1 (by decide)⟩,
    ⟨by decide, (auto_accept_below_threshold initialAnalysis ctxA 80000 ⟨0, 0⟩).2 (by decide)⟩⟩

/-- C7: the dynamic walk-away ceiling computed by the code equals the spec
formula. -/
theorem dynamic_threshold_matches_spec (a : SellerAnalysis)
    (ctx : NegotiationContext) :
    calculate_dynamic_threshold a ctx =
      spec_threshold a.flexibility_score6 ctx.current_round ctx.your_budget := by
  simp only [calculate_dynamic_threshold, spec_threshold]
  split_ifs <;> norm_num

/-- C5: the strategic counter computed by the code equals the spec formula. -/
theorem strategic_counter_matches_spec (a : SellerAnalysis)
    (ctx : NegotiationContext) (seller_price : ℤ) :
    calculate_strategic_counter a ctx seller_price =
      spec_strategic_counter a.flexibility_score6 a.urgency_level6
        ctx.current_round ctx.your_budget ctx.your_offers.getLast? seller_price := by
  simp only [calculate_strategic_counter, spec_strategic_counter]
  cases ctx.your_offers.getLast? <;>
    · simp only [Option.getD_none, Option.getD_some]
      norm_num

/-- C8: the opening offer equals the spec formula, is independent of the
quality grade, lies between 0 and the budget for nonnegative market price
and budget, and is exactly 140000 in the reference scenario (market price
200000, budget 300000, no origin bonus). -/
theorem opening_offer_matches_spec (ctx : NegotiationContext) (g : String) :
    (generate_opening_offer ctx =
      spec_opening ctx.product.base_market_price ctx.your_budget
        (decide (ctx.product.origin = "Ratnagiri" ∨ ctx.product.origin = "Alphonso"))) ∧
    (generate_opening_offer
        { ctx with product := { ctx.product with quality_grade := g } } =
      generate_opening_offer ctx) ∧
    (0 ≤ ctx.product.base_market_price → 0 ≤ ctx.your_budget →
      0 ≤ generate_opening_offer ctx ∧ generate_opening_offer ctx ≤ ctx.your_budget) ∧
    (ctx.product.base_market_price = 200000 → ctx.your_budget = 300000 →
      ¬(ctx.product.origin = "Ratnagiri" ∨ ctx.product.origin = "Alphonso") →
      generate_opening_offer ctx = 140000) := by
  refine ⟨?_, ?_, ?_, ?_⟩
  · simp only [generate_opening_offer, spec_opening]
    by_cases h : ctx.product.origin = "Ratnagiri" ∨ ctx.product.origin = "Alphonso" <;>
      simp [h]
  · simp only [generate_opening_offer]
  · intro hm hb
    constructor
    · have h70 : (0 : ℤ) ≤ pyMulDiv ctx.product.base_market_price 70 100 :=
        pyMulDiv_nonneg (mul_nonneg hm (by norm_num)) (by norm_num)
      simp only [generate_opening_offer]
      split_ifs with h
      · exact le_min (pyMulDiv_nonneg (mul_nonneg h70 (by norm_num)) (by norm_num))
          (pyMulDiv_nonneg (mul_nonneg hb (by norm_num)) (by norm_num))
      · exact le_min h70 (pyMulDiv_nonneg (mul_nonneg hb (by norm_num)) (by norm_num))
    · exact le_trans (min_le_right _ _)
        (pyMulDiv_le_self hb (by norm_num) (by norm_num) (by norm_num))
  · intro hm hb hor
    simp only [generate_opening_offer, if_neg hor, hm, hb]
    decide

theorem opening_offer_matches_spec_witness :
    ((0 : ℤ) ≤ ctxOpening.product.base_market_price ∧ 0 ≤ ctxOpening.your_budget ∧
      0 ≤ generate_opening_offer ctxOpening ∧
      generate_opening_offer ctxOpening ≤ ctxOpening.your_budget) ∧
    generate_opening_offer ctxOpening = 140000 :=
  ⟨⟨by decide, by decide,
      (opening_offer_matches_spec ctxOpening "B").2.2.1 (by decide) (by decide)⟩,
    (opening_offer_matches_spec ctxOpening "B").2.2.2 (by decide) (by decide) (by decide)⟩

/-- C9: in the round-9 scenario (budget 100000, last buyer offer 90000,
seller price 96000) the policy counters with 91500, which is strictly above
90000 and at most 98000, whatever the seller message and prior analysis
state; and make_final_attempt counters at last_offer plus 80 percent of the
room up to int(budget*0.98), capped there, withdrawing when the room is not
positive. -/
theorem final_attempt_behavior :
    (∀ (a : SellerAnalysis) (msg : MsgFeatures),
      (respond_to_seller_offer a ctxRound9 96000 msg).2 =
        (DealStatus.ONGOING, 91500) ∧
      (90000 : ℤ) < 91500 ∧ (91500 : ℤ) ≤ 98000) ∧
    (∀ ctx : NegotiationContext,
      0 < pyMulDiv ctx.your_budget 98 100 - ctx.your_offers.getLast?.getD 0 →
      make_final_attempt ctx =
        (DealStatus.ONGOING,
          min (ctx.your_offers.getLast?.getD 0 +
              pyMulDiv (pyMulDiv ctx.your_budget 98 100 -
                ctx.your_offers.getLast?.getD 0) 8 10)
            (pyMulDiv ctx.your_budget 98 100))) ∧
    (∀ ctx : NegotiationContext,
      pyMulDiv ctx.your_budget 98 100 - ctx.your_offers.getLast?.getD 0 ≤ 0 →
      make_final_attempt ctx = (DealStatus.ONGOING, 0)) := by
  refine ⟨?_, ?_, ?_⟩
  · intro a msg
    refine ⟨?_, by norm_num, by norm_num⟩
    simp only [respond_to_seller_offer, update_seller_analysis,
      calculate_dynamic_threshold, calculate_strategic_counter, ctxRound9,
      gujaratProduct]
    by_cases hf : 36 < 10 * min 6 (2 * (msg.flexCount : ℤ)) <;>
      by_cases hu : 42 < 10 * min 6 (3 * (msg.urgCount : ℤ)) <;>
        simp only [hf, hu, if_true, if_false] <;>
          simp only [apply_ite
            (Prod.snd : SellerAnalysis × (DealStatus × ℤ) → DealStatus × ℤ)] <;>
          decide
  · intro ctx h
    simp only [make_final_attempt, if_pos h]
  · intro ctx h
    simp only [make_final_attempt, if_neg (not_lt.mpr h)]

theorem final_attempt_behavior_witness :
    ((0 : ℤ) < pyMulDiv ctxRound9.your_budget 98 100 -
        ctxRound9.your_offers.getLast?.getD 0 ∧
      make_final_attempt ctxRound9 =
        (DealStatus.ONGOING,
          min (ctxRound9.your_offers.getLast?.getD 0 +
              pyMulDiv (pyMulDiv ctxRound9.your_budget 98 100 -
                ctxRound9.your_offers.getLast?.getD 0) 8 10)
            (pyMulDiv ctxRound9.your_budget 98 100))) ∧
    (pyMulDiv ctxFullBudget.your_budget 98 100 -
        ctxFullBudget.your_offers.getLast?.getD 0 ≤ 0 ∧
      make_final_attempt ctxFullBudget = (DealStatus.ONGOING, 0)) :=
  ⟨⟨by decide, final_attempt_behavior.2.1 ctxRound9 (by decide)⟩,
    ⟨by decide, final_attempt_behavior.2.2 ctxFullBudget (by decide)⟩⟩

/-- Helper: whenever the (post-update) walk-away ceiling is reached and the
round-8 near-ceiling rescue does not apply, the response is (ONGOING, 0). -/
theorem respond_withdraw_of_threshold (a : SellerAnalysis)
    (ctx : NegotiationContext) (seller_price : ℤ) (msg : MsgFeatures)
    (hb : 10 ≤ ctx.your_budget)
    (hth : calculate_dynamic_threshold (update_seller_analysis a seller_price msg ctx) ctx ≤
      seller_price)
    (hnot : ¬(8 ≤ ctx.current_round ∧ seller_price ≤ pyMulDiv ctx.your_budget 98 100)) :
    (respond_to_seller_offer a ctx seller_price msg).2 = (DealStatus.ONGOING, 0) := by
  have haccept : ¬ seller_price ≤ pyMulDiv ctx.your_budget 85 100 := by
    have h96 := dynamic_threshold_ge (update_seller_analysis a seller_price msg ctx)
      ctx (by omega)
    have h85 := pyMulDiv_85_lt_96 hb
    omega
  simp only [respond_to_seller_offer, if_neg haccept, if_pos hth, if_neg hnot]

/-- C6: when the seller price reaches the dynamic walk-away ceiling and the
round-8 near-ceiling rescue does not apply, the policy answers status ONGOING
with the withdraw sentinel price 0; in particular at budget 100000, round 3,
seller price 97000 it withdraws whatever the message says. -/
theorem walk_away_emits_withdraw (a : SellerAnalysis) (ctx : NegotiationContext)
    (seller_price : ℤ) (msg : MsgFeatures) :
    (10 ≤ ctx.your_budget →
      calculate_dynamic_threshold (update_seller_analysis a seller_price msg ctx) ctx ≤
        seller_price →
      ¬(8 ≤ ctx.current_round ∧ seller_price ≤ pyMulDiv ctx.your_budget 98 100) →
      (respond_to_seller_offer a ctx seller_price msg).2 = (DealStatus.ONGOING, 0)) ∧
    (∀ (a2 : SellerAnalysis) (msg2 : MsgFeatures),
      (respond_to_seller_offer a2 ctxA 97000 msg2).2 = (DealStatus.ONGOING, 0)) := by
  constructor
  · exact respond_withdraw_of_threshold a ctx seller_price msg
  · intro a2 msg2
    apply respond_withdraw_of_threshold
    · decide
    · have hth : calculate_dynamic_threshold
          (update_seller_analysis a2 97000 msg2 ctxA) ctxA ≤
          pyMulDiv ctxA.your_budget 97 100 := by
        simp only [calculate_dynamic_threshold, ctxA, gujaratProduct]
        norm_num
        split_ifs <;>
          exact pyMulDiv_mono_num (by norm_num) (by norm_num) (by norm_num) (by norm_num)
      exact le_trans hth (by decide)
    · decide

theorem walk_away_emits_withdraw_witness :
    (10 : ℤ) ≤ ctxA.your_budget ∧
    calculate_dynamic_threshold
      (update_seller_analysis initialAnalysis 97000 standardMsg ctxA) ctxA ≤ 97000 ∧
    ¬(8 ≤ ctxA.current_round ∧ (97000 : ℤ) ≤ pyMulDiv ctxA.your_budget 98 100) ∧
    (respond_to_seller_offer initialAnalysis ctxA 97000 standardMsg).2 =
      (DealStatus.ONGOING, 0) :=
  ⟨by decide, by decide, by decide,
    (walk_away_emits_withdraw initialAnalysis ctxA 97000 standardMsg).1
      (by decide) (by decide) (by decide)⟩

/-- Every way the loop body ends the session reports the round it was at,
namely loop index plus one, and a continuing step carries that round in the
context. -/
theorem loopStep_rounds (seller : MockSellerAgent) (i : ℕ) (a : SellerAnalysis)
    (ctx : NegotiationContext) (sp : ℤ) (sm : MsgFeatures) :
    (∀ r, loopStep seller i a ctx sp sm = Sum.inl r → r.rounds = (i : ℤ) + 1) ∧
    (∀ a' ctx' sp' sm',
      loopStep seller i a ctx sp sm = Sum.inr (a', ctx', sp', sm') →
      ctx'.current_round = (i : ℤ) + 1) := by
  constructor
  · intro r h
    simp only [loopStep] at h
    split_ifs at h <;> (injection h with h; subst h; rfl)
  · intro a' ctx' sp' sm' h
    simp only [loopStep] at h
    split_ifs at h <;>
      first
        | exact Sum.noConfusion h
        | (simp only [Sum.inr.injEq, Prod.mk.injEq] at h
           obtain ⟨h1, h2, h3, h4⟩ := h
           subst h2
           rfl)

/-- Every way the loop body ends the session sets final_price exactly when it
sets deal_made. -/
theorem loopStep_deal (seller : MockSellerAgent) (i : ℕ) (a : SellerAnalysis)
    (ctx : NegotiationContext) (sp : ℤ) (sm : MsgFeatures) :
    ∀ r, loopStep seller i a ctx sp sm = Sum.inl r →
      r.deal_made = r.final_price.isSome := by
  intro r h
  simp only [loopStep] at h
  split_ifs at h <;> (injection h with h; subst h; rfl)

theorem runLoop_rounds_le (seller : MockSellerAgent) :
    ∀ (rem i : ℕ) (a : SellerAnalysis) (ctx : NegotiationContext) (sp : ℤ)
      (sm : MsgFeatures), ctx.current_round ≤ (i : ℤ) →
      (runLoop seller rem i a ctx sp sm).rounds ≤ (i : ℤ) + rem := by
  intro rem
  induction rem with
  | zero =>
    intro i a ctx sp sm h
    simpa [runLoop] using h
  | succ n ih =>
    intro i a ctx sp sm h
    rw [runLoop]
    rcases hstep : loopStep seller i a ctx sp sm with r | ⟨a', ctx', sp', sm'⟩
    · have hr := (loopStep_rounds seller i a ctx sp sm).1 r hstep
      simp only [hr]
      push_cast
      omega
    · have hc := (loopStep_rounds seller i a ctx sp sm).2 a' ctx' sp' sm' hstep
      have := ih (i + 1) a' ctx' sp' sm' (by rw [hc]; push_cast; omega)
      simp only []
      refine le_trans this (by push_cast; omega)

theorem runLoop_deal (seller : MockSellerAgent) :
    ∀ (rem i : ℕ) (a : SellerAnalysis) (ctx : NegotiationContext) (sp : ℤ)
      (sm : MsgFeatures),
      (runLoop seller rem i a ctx sp sm).deal_made =
        (runLoop seller rem i a ctx sp sm).final_price.isSome := by
  intro rem
  induction rem with
  | zero => intro i a ctx sp sm; rfl
  | succ n ih =>
    intro i a ctx sp sm
    rw [runLoop]
    rcases hstep : loopStep seller i a ctx sp sm with r | ⟨a', ctx', sp', sm'⟩
    · exact loopStep_deal seller i a ctx sp sm r hstep
    · exact ih (i + 1) a' ctx' sp' sm'

/-- C4: the driver always terminates within 10 rounds (the final
current_round never exceeds 10), and it ends with a final price exactly when
deal_made is set; otherwise deal_made is false (round exhaustion or
withdrawal) with no final price. -/
theorem driver_terminates_within_ten_rounds (product : Product)
    (buyer_budget seller_min : ℤ) (seller_personality : String)
    (openFeat : MsgFeatures) :
    (run_negotiation_test product buyer_budget seller_min seller_personality
        openFeat).rounds ≤ 10 ∧
    (run_negotiation_test product buyer_budget seller_min seller_personality
        openFeat).deal_made =
      (run_negotiation_test product buyer_budget seller_min seller_personality
        openFeat).final_price.isSome := by
  constructor
  · have := runLoop_rounds_le ⟨seller_min, seller_personality⟩ 10 0 initialAnalysis
      { product := product, your_budget := buyer_budget, current_round := 0,
        seller_offers := [get_opening_price ⟨seller_min, seller_personality⟩ product],
        your_offers := [] }
      (get_opening_price ⟨seller_min, seller_personality⟩ product) openFeat
      (by norm_num)
    simpa [run_negotiation_test] using this
  · exact runLoop_deal ⟨seller_min, seller_personality⟩ 10 0 initialAnalysis _ _ _

/-- The loop body records a buyer offer only when it is strictly positive. -/
theorem loopStep_offers_pos (seller : MockSellerAgent) (i : ℕ)
    (a : SellerAnalysis) (ctx : NegotiationContext) (sp : ℤ) (sm : MsgFeatures)
    (hpos : ∀ x ∈ ctx.your_offers, 0 < x) :
    (∀ r, loopStep seller i a ctx sp sm = Sum.inl r →
      ∀ x ∈ r.your_offers, 0 < x) ∧
    (∀ a' ctx' sp' sm',
      loopStep seller i a ctx sp sm = Sum.inr (a', ctx', sp', sm') →
      ∀ x ∈ ctx'.your_offers, 0 < x) := by
  constructor
  · intro r h
    simp only [loopStep] at h
    split_ifs at h <;>
      (injection h with h; subst h;
       intro x hx;
       first
         | exact hpos x hx
         | (rcases List.mem_append.mp hx with hx2 | hx2
            · exact hpos x hx2
            · rw [List.mem_singleton.mp hx2]; assumption))
  · intro a' ctx' sp' sm' h
    simp only [loopStep] at h
    split_ifs at h <;>
      first
        | exact Sum.noConfusion h
        | (simp only [Sum.inr.injEq, Prod.mk.injEq] at h
           obtain ⟨h1, h2, h3, h4⟩ := h
           subst h2
           intro x hx
           first
             | exact hpos x hx
             | (rcases List.mem_append.mp hx with hx2 | hx2
                · exact hpos x hx2
                · rw [List.mem_singleton.mp hx2]; assumption))

theorem runLoop_offers_pos (seller : MockSellerAgent) :
    ∀ (rem i : ℕ) (a : SellerAnalysis) (ctx : NegotiationContext) (sp : ℤ)
      (sm : MsgFeatures), (∀ x ∈ ctx.your_offers, 0 < x) →
      ∀ x ∈ (runLoop seller rem i a ctx sp sm).your_offers, 0 < x := by
  intro rem
  induction rem with
  | zero => intro i a ctx sp sm hpos; simpa [runLoop] using hpos
  | succ n ih =>
    intro i a ctx sp sm hpos
    rw [runLoop]
    rcases hstep : loopStep seller i a ctx sp sm with r | ⟨a', ctx', sp', sm'⟩
    · exact (loopStep_offers_pos seller i a ctx sp sm hpos).1 r hstep
    · exact ih (i + 1) a' ctx' sp' sm'
        ((loopStep_offers_pos seller i a ctx sp sm hpos).2 a' ctx' sp' sm' hstep)

/-- C10: respond_to_seller_offer only ever returns the statuses ACCEPTED or
ONGOING (never REJECTED or TIMEOUT); every buyer offer the driver records is
strictly positive; and a buyer turn that answers (ONGOING, 0) — the withdraw
sentinel — makes the loop stop at that round with no deal, no final price and
nothing recorded. -/
theorem statuses_and_withdraw_sentinel :
    (∀ (a : SellerAnalysis) (ctx : NegotiationContext) (sp : ℤ) (msg : MsgFeatures),
      (respond_to_seller_offer a ctx sp msg).2.1 = DealStatus.ACCEPTED ∨
      (respond_to_seller_offer a ctx sp msg).2.1 = DealStatus.ONGOING) ∧
    (∀ (product : Product) (buyer_budget seller_min : ℤ) (pers : String)
      (openFeat : MsgFeatures),
      ∀ x ∈ (run_negotiation_test product buyer_budget seller_min pers
        openFeat).your_offers, 0 < x) ∧
    (∀ (seller : MockSellerAgent) (rem i : ℕ) (a : SellerAnalysis)
      (ctx : NegotiationContext) (sp : ℤ) (sm : MsgFeatures), i ≠ 0 →
      (respond_to_seller_offer a { ctx with current_round := (i : ℤ) + 1 } sp sm).2 =
        (DealStatus.ONGOING, 0) →
      runLoop seller (rem + 1) i a ctx sp sm =
        ⟨false, none, (i : ℤ) + 1, ctx.your_offers, false⟩) := by
  refine ⟨?_, ?_, ?_⟩
  · intro a ctx sp msg
    simp only [respond_to_seller_offer, make_final_attempt]
    split_ifs <;> simp
  · intro product buyer_budget seller_min pers openFeat
    exact runLoop_offers_pos ⟨seller_min, pers⟩ 10 0 initialAnalysis _ _ _
      (by intro x hx; exact absurd hx (List.not_mem_nil x))
  · intro seller rem i a ctx sp sm hi hresp
    have h1 : (respond_to_seller_offer a
        { ctx with current_round := (i : ℤ) + 1 } sp sm).2.1 = DealStatus.ONGOING := by
      rw [hresp]
    have h2 : (respond_to_seller_offer a
        { ctx with current_round := (i : ℤ) + 1 } sp sm).2.2 = 0 := by
      rw [hresp]
    rw [runLoop]
    simp only [loopStep, if_neg hi, h1, h2]
    rw [if_neg (by decide : ¬ (DealStatus.ONGOING = DealStatus.ACCEPTED))]
    simp

theorem statuses_and_withdraw_sentinel_witness :
    (2 : ℕ) ≠ 0 ∧
    (respond_to_seller_offer initialAnalysis
        { ctxA with current_round := ((2 : ℕ) : ℤ) + 1 } 97000 standardMsg).2 =
      (DealStatus.ONGOING, 0) ∧
    runLoop ⟨136000, "standard"⟩ (7 + 1) 2 initialAnalysis ctxA 97000 standardMsg =
      ⟨false, none, ((2 : ℕ) : ℤ) + 1, ctxA.your_offers, false⟩ :=
  ⟨by decide, by decide,
    statuses_and_withdraw_sentinel.2.2 ⟨136000, "standard"⟩ 7 2 initialAnalysis
      ctxA 97000 standardMsg (by decide) (by decide)⟩

/-- Shape of a non-accepting seller counter: maximum of the floor price and
the buyer offer scaled by 1.03 (near deadline) or by the personality
multiplier 1.2 / 1.12 / 1.15, with a message carrying at most one
flexibility indicator. -/
theorem respond_to_buyer_counter (s : MockSellerAgent) (v r : ℤ)
    (h : (respond_to_buyer s v r).2.2 = false) :
    (respond_to_buyer s v r).2.1.flexCount ≤ 1 ∧
    ((8 ≤ r ∧ (respond_to_buyer s v r).1 =
        max s.min_price (pyMulDiv v 103 100)) ∨
      (¬ 8 ≤ r ∧
        ((respond_to_buyer s v r).1 = max s.min_price (pyMulDiv v 12 10) ∨
         (respond_to_buyer s v r).1 = max s.min_price (pyMulDiv v 112 100) ∨
         (respond_to_buyer s v r).1 = max s.min_price (pyMulDiv v 115 100)))) := by
  simp only [respond_to_buyer] at h ⊢
  split_ifs at h ⊢ <;> simp_all [finalOfferMsg, aggressiveMsg, flexibleMsg, standardMsg]

/-- With a message carrying at most one flexibility indicator, the recomputed
flexibility score stays at or below 1/3, so the +0.01 ceiling bump never
fires. -/
theorem threshold_no_flex (a : SellerAnalysis) (sp : ℤ) (sm : MsgFeatures)
    (ctx : NegotiationContext) (hsm : sm.flexCount ≤ 1) :
    calculate_dynamic_threshold (update_seller_analysis a sp sm ctx) ctx =
      pyMulDiv ctx.your_budget
        (if 8 ≤ ctx.current_round then 98
          else if 6 ≤ ctx.current_round then 97 else 96) 100 := by
  simp only [calculate_dynamic_threshold, update_seller_analysis]
  have h1 : (sm.flexCount : ℤ) ≤ 1 := by exact_mod_cast hsm
  have h2 : min 6 (2 * (sm.flexCount : ℤ)) ≤ 2 :=
    le_trans (min_le_right _ _) (by omega)
  rw [if_neg (by omega)]

/-- Core facts about a strategic counter from a recorded history: it never
exceeds int(budget*0.95); it does not regress when the last offer is at or
below that cap; and it strictly advances when the last offer is strictly
below the cap and the minimum progress is at least 1. -/
theorem strategic_props (a1 : SellerAnalysis) (ctx1 : NegotiationContext)
    (sp : ℤ) (hb : 0 ≤ ctx1.your_budget) (hne : ctx1.your_offers ≠ []) :
    calculate_strategic_counter a1 ctx1 sp ≤ pyMulDiv ctx1.your_budget 95 100 ∧
    (ctx1.your_offers.getLast?.getD 0 ≤ pyMulDiv ctx1.your_budget 95 100 →
      ctx1.your_offers.getLast?.getD 0 ≤ calculate_strategic_counter a1 ctx1 sp) ∧
    (ctx1.your_offers.getLast?.getD 0 < pyMulDiv ctx1.your_budget 95 100 →
      1 ≤ pyMulDiv ctx1.your_budget 15 1000 →
      ctx1.your_offers.getLast?.getD 0 < calculate_strategic_counter a1 ctx1 sp) := by
  have hmp : 0 ≤ pyMulDiv ctx1.your_budget 15 1000 :=
    pyMulDiv_nonneg (mul_nonneg hb (by norm_num)) (by norm_num)
  rcases e : ctx1.your_offers.getLast? with _ | o
  · exact absurd (List.getLast?_eq_none_iff.mp e) hne
  · simp only [calculate_strategic_counter, e, Option.getD_some]
    refine ⟨?_, fun hc => ?_, fun hc hmp1 => ?_⟩ <;> split_ifs <;> omega

/-- For den ≤ num (a multiplier of at least one) and 0 ≤ x, x ≤ int(x * num/den). -/
theorem pyMulDiv_ge_self {x num den : ℤ} (hx : 0 ≤ x) (h : den ≤ num)
    (hd : 0 < den) : x ≤ pyMulDiv x num den := by
  have hb := pyMulDiv_bounds (mul_nonneg hx (hd.le.trans h)) hd
  nlinarith [hb.2, mul_le_mul_of_nonneg_left h hx, hd]

/-- Appending an element related to the last entry preserves a chain. -/
theorem chain'_concat {R : ℤ → ℤ → Prop} {xs : List ℤ} {l y : ℤ}
    (e : xs.getLast? = some l) (h : List.Chain' R xs) (hy : R l y) :
    List.Chain' R (xs ++ [y]) := by
  rw [List.chain'_append]
  refine ⟨h, List.chain'_singleton y, ?_⟩
  intro u hu v hv
  rw [e, Option.mem_some_iff] at hu
  simp only [List.head?_cons, Option.mem_some_iff] at hv
  subst hu
  subst hv
  exact hy

/-- When the pre-deadline seller counter to a recorded offer stays below the
int(budget*0.98) ceiling, the recorded offer is strictly below the buyer's
int(budget*0.95) clamp (every personality multiplier is at least 1.12). -/
theorem strat_last_lt_cap (b l sp mp : ℤ) (hb : 700 ≤ b) (hl : 0 ≤ l)
    (hforms : sp = max mp (pyMulDiv l 12 10) ∨ sp = max mp (pyMulDiv l 112 100) ∨
      sp = max mp (pyMulDiv l 115 100))
    (hsp : sp < pyMulDiv b 98 100) :
    l < pyMulDiv b 95 100 := by
  have hTb := pyMulDiv_bounds (show (0:ℤ) ≤ b * 98 by linarith)
    (show (0:ℤ) < 100 by norm_num)
  have hCb := pyMulDiv_bounds (show (0:ℤ) ≤ b * 95 by linarith)
    (show (0:ℤ) < 100 by norm_num)
  rcases hforms with rfl | rfl | rfl
  · have hP := pyMulDiv_bounds (show (0:ℤ) ≤ l * 12 by linarith)
      (show (0:ℤ) < 10 by norm_num)
    omega
  · have hP := pyMulDiv_bounds (show (0:ℤ) ≤ l * 112 by linarith)
      (show (0:ℤ) < 100 by norm_num)
    omega
  · have hP := pyMulDiv_bounds (show (0:ℤ) ≤ l * 115 by linarith)
      (show (0:ℤ) < 100 by norm_num)
    omega

/-- The final-attempt window: when the seller's counter to the recorded offer
l lands exactly on the int(budget*0.98) ceiling (the only way the deadline
branch counters), the escalated offer min(l + int(room*0.8), int(budget*0.98))
does not regress, is positive, and — whenever it exceeds int(budget*0.95) —
its own 1.03-scaled seller counter reaches the ceiling again, so the buyer can
never fall back to the strategic clamp afterwards. -/
theorem final_window (b l : ℤ) (hb : 700 ≤ b) (hl : 1 ≤ l)
    (hroom : l < pyMulDiv b 98 100)
    (hμ : pyMulDiv l 103 100 = pyMulDiv b 98 100 ∨
      pyMulDiv l 12 10 = pyMulDiv b 98 100 ∨
      pyMulDiv l 112 100 = pyMulDiv b 98 100 ∨
      pyMulDiv l 115 100 = pyMulDiv b 98 100) :
    l ≤ min (l + pyMulDiv (pyMulDiv b 98 100 - l) 8 10) (pyMulDiv b 98 100) ∧
    1 ≤ min (l + pyMulDiv (pyMulDiv b 98 100 - l) 8 10) (pyMulDiv b 98 100) ∧
    (pyMulDiv b 95 100 <
        min (l + pyMulDiv (pyMulDiv b 98 100 - l) 8 10) (pyMulDiv b 98 100) →
      pyMulDiv b 98 100 ≤
        pyMulDiv
          (min (l + pyMulDiv (pyMulDiv b 98 100 - l) 8 10) (pyMulDiv b 98 100))
          103 100) := by
  have hTb := pyMulDiv_bounds (show (0:ℤ) ≤ b * 98 by linarith)
    (show (0:ℤ) < 100 by norm_num)
  have hCb := pyMulDiv_bounds (show (0:ℤ) ≤ b * 95 by linarith)
    (show (0:ℤ) < 100 by norm_num)
  have h8 := pyMulDiv_bounds (show (0:ℤ) ≤ (pyMulDiv b 98 100 - l) * 8 by linarith)
    (show (0:ℤ) < 10 by norm_num)
  have hVb := pyMulDiv_bounds
    (show (0:ℤ) ≤
        (min (l + pyMulDiv (pyMulDiv b 98 100 - l) 8 10) (pyMulDiv b 98 100)) * 103 by
      omega)
    (show (0:ℤ) < 100 by norm_num)
  rcases hμ with hP | hP | hP | hP
  · have hPb := pyMulDiv_bounds (show (0:ℤ) ≤ l * 103 by linarith)
      (show (0:ℤ) < 100 by norm_num)
    exact ⟨by omega, by omega, fun hCv => by omega⟩
  · have hPb := pyMulDiv_bounds (show (0:ℤ) ≤ l * 12 by linarith)
      (show (0:ℤ) < 10 by norm_num)
    exact ⟨by omega, by omega, fun hCv => by omega⟩
  · have hPb := pyMulDiv_bounds (show (0:ℤ) ≤ l * 112 by linarith)
      (show (0:ℤ) < 100 by norm_num)
    exact ⟨by omega, by omega, fun hCv => by omega⟩
  · have hPb := pyMulDiv_bounds (show (0:ℤ) ≤ l * 115 by linarith)
      (show (0:ℤ) < 100 by norm_num)
    exact ⟨by omega, by omega, fun hCv => by omega⟩

/-- One buyer turn under the loop invariant: respond_to_seller_offer either
accepts the seller's price (which never regresses below the recorded offer),
answers the withdraw sentinel (ONGOING, 0), or counters with a positive offer
that never regresses, strictly advances before round 8, respects the
int(budget*0.95) clamp before round 8, and — when it exceeds that clamp (a
final attempt) — forces the next 1.03-scaled seller counter up to the
int(budget*0.98) ceiling; on the first counter round the seller price is
below int(budget*0.96). -/
theorem respond_props (a : SellerAnalysis) (ctx : NegotiationContext)
    (seller : MockSellerAgent) (sp : ℤ) (sm : MsgFeatures) (b : ℤ) (i : ℕ)
    (l : ℤ)
    (hbud : ctx.your_budget = b) (hround : ctx.current_round = (i : ℤ) + 1)
    (hb : 700 ≤ b) (hi : 1 ≤ i)
    (hl : ctx.your_offers.getLast? = some l) (hlpos : 1 ≤ l)
    (hlast_cap : i ≤ 7 → l ≤ pyMulDiv b 95 100)
    (hover : pyMulDiv b 95 100 < l →
      pyMulDiv b 98 100 ≤ pyMulDiv l 103 100)
    (hsp : (8 ≤ i ∧ sp = max seller.min_price (pyMulDiv l 103 100)) ∨
      (i ≤ 7 ∧ (sp = max seller.min_price (pyMulDiv l 12 10) ∨
        sp = max seller.min_price (pyMulDiv l 112 100) ∨
        sp = max seller.min_price (pyMulDiv l 115 100))))
    (hmin : 2 ≤ i → seller.min_price < pyMulDiv b 96 100)
    (hsm : sm.flexCount ≤ 1) :
    ((respond_to_seller_offer a ctx sp sm).2.1 = DealStatus.ACCEPTED ∧
      (respond_to_seller_offer a ctx sp sm).2.2 = sp ∧ l ≤ sp) ∨
    ((respond_to_seller_offer a ctx sp sm).2.1 = DealStatus.ONGOING ∧
      (respond_to_seller_offer a ctx sp sm).2.2 = 0) ∨
    ((respond_to_seller_offer a ctx sp sm).2.1 = DealStatus.ONGOING ∧
      1 ≤ (respond_to_seller_offer a ctx sp sm).2.2 ∧
      l ≤ (respond_to_seller_offer a ctx sp sm).2.2 ∧
      (i ≤ 6 → l < (respond_to_seller_offer a ctx sp sm).2.2) ∧
      (i + 1 ≤ 7 → (respond_to_seller_offer a ctx sp sm).2.2 ≤ pyMulDiv b 95 100) ∧
      (pyMulDiv b 95 100 < (respond_to_seller_offer a ctx sp sm).2.2 →
        pyMulDiv b 98 100 ≤
          pyMulDiv ((respond_to_seller_offer a ctx sp sm).2.2) 103 100) ∧
      (i = 1 → sp < pyMulDiv b 96 100)) := by
  have hb0 : (0 : ℤ) ≤ b := by linarith
  have hl0 : (0 : ℤ) ≤ l := by linarith
  have hl_le_sp : l ≤ sp := by
    rcases hsp with ⟨_, rfl⟩ | ⟨_, rfl | rfl | rfl⟩ <;>
      exact le_max_of_le_right (pyMulDiv_ge_self hl0 (by norm_num) (by norm_num))
  have hne : ctx.your_offers ≠ [] := by
    intro h
    rw [h] at hl
    exact Option.noConfusion hl
  have h96T : pyMulDiv b 96 100 ≤ pyMulDiv b 98 100 :=
    pyMulDiv_mono_num (by norm_num) hb0 (by norm_num) (by norm_num)
  simp only [respond_to_seller_offer]
  split_ifs with h85 hw hf
  · exact Or.inl ⟨rfl, rfl, hl_le_sp⟩
  · -- final attempt: the walk-away ceiling is reached at round ≥ 8 with
    -- sp at most int(budget*0.98)
    rw [threshold_no_flex a sp sm ctx hsm, hbud, hround] at hw
    obtain ⟨hf1, hf2⟩ := hf
    rw [hround] at hf1
    rw [hbud] at hf2
    have hi7 : 7 ≤ i := by omega
    rw [if_pos (show (8:ℤ) ≤ (i:ℤ) + 1 by omega)] at hw
    have hspT : sp = pyMulDiv b 98 100 := le_antisymm hf2 hw
    have hmp : seller.min_price < pyMulDiv b 96 100 := hmin (by omega)
    have hμ : pyMulDiv l 103 100 = pyMulDiv b 98 100 ∨
        pyMulDiv l 12 10 = pyMulDiv b 98 100 ∨
        pyMulDiv l 112 100 = pyMulDiv b 98 100 ∨
        pyMulDiv l 115 100 = pyMulDiv b 98 100 := by
      rcases hsp with ⟨_, hform⟩ | ⟨_, hform | hform | hform⟩ <;>
        rw [hform] at hspT
      · exact Or.inl (by omega)
      · exact Or.inr (Or.inl (by omega))
      · exact Or.inr (Or.inr (Or.inl (by omega)))
      · exact Or.inr (Or.inr (Or.inr (by omega)))
    simp only [make_final_attempt, hl, Option.getD_some, hbud]
    by_cases hroom : 0 < pyMulDiv b 98 100 - l
    · rw [if_pos hroom]
      have FW := final_window b l hb hlpos (by omega) hμ
      exact Or.inr (Or.inr ⟨rfl, FW.2.1, FW.1,
        fun h => by omega, fun h => by omega, FW.2.2, fun h => by omega⟩)
    · rw [if_neg hroom]
      exact Or.inr (Or.inl ⟨rfl, rfl⟩)
  · -- withdraw
    exact Or.inr (Or.inl ⟨rfl, rfl⟩)
  · -- strategic counter
    rw [threshold_no_flex a sp sm ctx hsm, hbud, hround] at hw
    have SP := strategic_props (update_seller_analysis a sp sm ctx) ctx sp
      (by rw [hbud]; linarith) hne
    rw [hl, hbud] at SP
    simp only [Option.getD_some] at SP
    have hmp1 : 1 ≤ pyMulDiv b 15 1000 := by
      have := pyMulDiv_bounds (show (0:ℤ) ≤ b * 15 by linarith)
        (show (0:ℤ) < 1000 by norm_num)
      omega
    have hlC : l ≤ pyMulDiv b 95 100 := by
      rcases hsp with ⟨hi8, hform⟩ | ⟨hi7, _⟩
      · by_contra hgt
        push_neg at hgt
        have h103 := hover hgt
        rw [if_pos (show (8:ℤ) ≤ (i:ℤ) + 1 by omega)] at hw
        rw [hform] at hw
        have : pyMulDiv b 98 100 ≤ max seller.min_price (pyMulDiv l 103 100) :=
          le_trans h103 (le_max_right _ _)
        omega
      · exact hlast_cap hi7
    refine Or.inr (Or.inr ⟨rfl, ?_, SP.2.1 hlC, ?_, fun _ => SP.1, ?_, ?_⟩)
    · show 1 ≤ calculate_strategic_counter (update_seller_analysis a sp sm ctx) ctx sp
      have := SP.2.1 hlC
      omega
    · intro h6
      rcases hsp with ⟨hi8, _⟩ | ⟨hi7, hforms⟩
      · omega
      · have hwT : sp < pyMulDiv b 98 100 := by
          push_neg at hw
          refine lt_of_lt_of_le hw ?_
          apply pyMulDiv_mono_num ?_ hb0 ?_ (by norm_num) <;> split_ifs <;> norm_num
        exact SP.2.2 (strat_last_lt_cap b l sp seller.min_price hb hl0 hforms hwT) hmp1
    · intro hCv
      exact absurd hCv (not_lt.mpr SP.1)
    · intro h1
      subst h1
      push_neg at hw
      norm_num at hw
      linarith

/-- One full loop iteration from an invariant state: if the body ends the
session the result satisfies the forward-progress property, and if it
continues the invariant holds at the next index. -/
theorem loopStep_ok (seller : MockSellerAgent) (b : ℤ) (i : ℕ)
    (a : SellerAnalysis) (ctx : NegotiationContext) (sp : ℤ) (sm : MsgFeatures)
    (inv : LoopInv seller b i ctx sp sm) :
    (∀ r, loopStep seller i a ctx sp sm = Sum.inl r → offers_ok r) ∧
    (∀ a' ctx' sp' sm', loopStep seller i a ctx sp sm = Sum.inr (a', ctx', sp', sm') →
      LoopInv seller b (i + 1) ctx' sp' sm') := by
  have hi0 : ¬ (i = 0) := by have := inv.hi; omega
  have hne : ctx.your_offers ≠ [] := by
    intro h
    have := inv.hlen
    rw [h] at this
    simp at this
    omega
  obtain ⟨l, hl⟩ : ∃ l, ctx.your_offers.getLast? = some l := by
    rcases e : ctx.your_offers.getLast? with _ | l
    · exact absurd (List.getLast?_eq_none_iff.mp e) hne
    · exact ⟨l, rfl⟩
  have hlpos : 1 ≤ l := by
    have := inv.hpos l (List.mem_of_getLast?_eq_some hl)
    omega
  have hlast_cap2 : i ≤ 7 → l ≤ pyMulDiv b 95 100 := by
    intro h7
    have := inv.hlast_cap h7
    rwa [hl, Option.getD_some] at this
  have hover2 : pyMulDiv b 95 100 < l →
      pyMulDiv b 98 100 ≤ pyMulDiv l 103 100 := by
    intro hC
    have := inv.hover (by rw [hl, Option.getD_some]; exact hC)
    rwa [hl, Option.getD_some] at this
  have hsp2 := inv.hsp
  simp only [hl, Option.getD_some] at hsp2
  have hctx2 := respond_props a { ctx with current_round := (i : ℤ) + 1 } seller
    sp sm b i l inv.hbud rfl inv.hb700 inv.hi hl hlpos hlast_cap2 hover2
    hsp2 inv.hmin inv.hsm
  constructor
  · intro r hr
    simp only [loopStep, if_neg hi0] at hr
    rcases hctx2 with ⟨hst, hpr, hle⟩ | ⟨hst, hpr⟩ |
      ⟨hst, h1, hle, hstr, hcap, hov, hsp1⟩
    · -- buyer accepts: the recorded history gains the accepted seller price
      rw [hpr, hst] at hr
      rw [if_pos (show (0:ℤ) < sp by omega)] at hr
      rw [if_pos rfl] at hr
      injection hr with hr
      subst hr
      refine ⟨chain'_concat hl inv.hchain hle, ?_⟩
      show List.Chain' (· < ·) ((ctx.your_offers ++ [sp]).dropLast.take 7)
      rw [List.dropLast_concat]
      exact inv.hstrict
    · -- withdraw sentinel: nothing recorded, loop ends
      rw [hpr, hst] at hr
      rw [if_neg (lt_irrefl (0:ℤ))] at hr
      rw [if_neg (show ¬(DealStatus.ONGOING = DealStatus.ACCEPTED) by decide)] at hr
      rw [if_pos rfl] at hr
      injection hr with hr
      subst hr
      exact ⟨inv.hchain, inv.hstrict⟩
    · -- counter offer recorded; the loop ends here only if the seller accepts
      set v := (respond_to_seller_offer a
        { ctx with current_round := (i : ℤ) + 1 } sp sm).2.2 with hv
      rw [hst] at hr
      rw [if_neg (show ¬(DealStatus.ONGOING = DealStatus.ACCEPTED) by decide)] at hr
      rw [if_pos (show (0:ℤ) < v by omega)] at hr
      rw [if_neg (show ¬(v = 0) by omega)] at hr
      rcases hacc : (respond_to_buyer seller v ((i : ℤ) + 1)).2.2 with _ | _
      · rw [hacc] at hr
        rw [if_neg (show ¬(false = true) by decide)] at hr
        exact Sum.noConfusion hr
      · rw [hacc] at hr
        rw [if_pos rfl] at hr
        injection hr with hr
        subst hr
        refine ⟨chain'_concat hl inv.hchain hle, ?_⟩
        show List.Chain' (· < ·) ((ctx.your_offers ++ [v]).take 7)
        by_cases h6 : i ≤ 6
        · rw [List.take_of_length_le (by simp [inv.hlen]; omega)]
          have hx : ctx.your_offers.take 7 = ctx.your_offers :=
            List.take_of_length_le (by rw [inv.hlen]; omega)
          exact chain'_concat hl (hx ▸ inv.hstrict) (hstr h6)
        · rw [List.take_append_of_le_length (by rw [inv.hlen]; omega)]
          exact inv.hstrict
  · intro a' ctx' sp' sm' hr
    simp only [loopStep, if_neg hi0] at hr
    rcases hctx2 with ⟨hst, hpr, hle⟩ | ⟨hst, hpr⟩ |
      ⟨hst, h1, hle, hstr, hcap, hov, hsp1⟩
    · rw [hpr, hst] at hr
      rw [if_pos (show (0:ℤ) < sp by omega)] at hr
      rw [if_pos rfl] at hr
      exact Sum.noConfusion hr
    · rw [hpr, hst] at hr
      rw [if_neg (lt_irrefl (0:ℤ))] at hr
      rw [if_neg (show ¬(DealStatus.ONGOING = DealStatus.ACCEPTED) by decide)] at hr
      rw [if_pos rfl] at hr
      exact Sum.noConfusion hr
    · set v := (respond_to_seller_offer a
        { ctx with current_round := (i : ℤ) + 1 } sp sm).2.2 with hv
      rw [hst] at hr
      rw [if_neg (show ¬(DealStatus.ONGOING = DealStatus.ACCEPTED) by decide)] at hr
      rw [if_pos (show (0:ℤ) < v by omega)] at hr
      rw [if_neg (show ¬(v = 0) by omega)] at hr
      rcases hacc : (respond_to_buyer seller v ((i : ℤ) + 1)).2.2 with _ | _
      swap
      · rw [hacc] at hr
        rw [if_pos rfl] at hr
        exact Sum.noConfusion hr
      · rw [hacc] at hr
        rw [if_neg (show ¬(false = true) by decide)] at hr
        simp only [Sum.inr.injEq, Prod.mk.injEq] at hr
        obtain ⟨hA, hC, hS, hM⟩ := hr
        subst hC
        subst hS
        subst hM
        have hglast : (ctx.your_offers ++ [v]).getLast? = some v :=
          List.getLast?_concat _
        have RB := respond_to_buyer_counter seller v ((i : ℤ) + 1) hacc
        refine ⟨inv.hbud, inv.hb700, by omega, ?_, ?_, ?_, ?_, ?_, ?_, ?_, ?_, RB.1⟩
        · show (ctx.your_offers ++ [v]).length = i + 1
          simp [inv.hlen]
        · intro x hx
          rcases List.mem_append.mp hx with hx2 | hx2
          · exact inv.hpos x hx2
          · rw [List.mem_singleton.mp hx2]
            omega
        · exact chain'_concat hl inv.hchain hle
        · show List.Chain' (· < ·) ((ctx.your_offers ++ [v]).take 7)
          by_cases h6 : i ≤ 6
          · rw [List.take_of_length_le (by simp [inv.hlen]; omega)]
            have hx : ctx.your_offers.take 7 = ctx.your_offers :=
              List.take_of_length_le (by rw [inv.hlen]; omega)
            exact chain'_concat hl (hx ▸ inv.hstrict) (hstr h6)
          · rw [List.take_append_of_le_length (by rw [inv.hlen]; omega)]
            exact inv.hstrict
        · intro h7
          simp only [hglast, Option.getD_some]
          exact hcap h7
        · simp only [hglast, Option.getD_some]
          exact hov
        · simp only [hglast, Option.getD_some]
          rcases RB.2 with ⟨h8, hform⟩ | ⟨h8, hforms⟩
          · exact Or.inl ⟨by omega, hform⟩
          · exact Or.inr ⟨by omega, hforms⟩
        · intro h2
          have hmple : seller.min_price ≤ sp := by
            rcases inv.hsp with ⟨_, rfl⟩ | ⟨_, rfl | rfl | rfl⟩ <;>
              exact le_max_left _ _
          rcases Nat.lt_or_ge i 2 with hlt | hge
          · have h1i : i = 1 := by omega
            have := hsp1 h1i
            omega
          · exact inv.hmin hge

/-- The first loop iteration: the opening offer either ends the session at
once (zero opening, or the seller accepts) with a trivially monotone history,
or establishes the loop invariant at index 1. -/
theorem loopStep_zero_ok (seller : MockSellerAgent) (b : ℤ) (a : SellerAnalysis)
    (ctx : NegotiationContext) (sp : ℤ) (sm : MsgFeatures)
    (hbud : ctx.your_budget = b) (hb : 700 ≤ b)
    (hm : 0 ≤ ctx.product.base_market_price) (hoff : ctx.your_offers = []) :
    (∀ r, loopStep seller 0 a ctx sp sm = Sum.inl r → offers_ok r) ∧
    (∀ a' ctx' sp' sm', loopStep seller 0 a ctx sp sm = Sum.inr (a', ctx', sp', sm') →
      LoopInv seller b 1 ctx' sp' sm') := by
  have hb0 : (0:ℤ) ≤ b := by linarith
  have hbud0 : (0:ℤ) ≤ ctx.your_budget := by rw [hbud]; linarith
  have ho_nn : 0 ≤ generate_opening_offer
      { ctx with current_round := ((0:ℕ) : ℤ) + 1 } := by
    simp only [generate_opening_offer]
    split_ifs
    · exact le_min
        (pyMulDiv_nonneg
          (mul_nonneg (pyMulDiv_nonneg (mul_nonneg hm (by norm_num)) (by norm_num))
            (by norm_num)) (by norm_num))
        (pyMulDiv_nonneg (mul_nonneg hbud0 (by norm_num)) (by norm_num))
    · exact le_min
        (pyMulDiv_nonneg (mul_nonneg hm (by norm_num)) (by norm_num))
        (pyMulDiv_nonneg (mul_nonneg hbud0 (by norm_num)) (by norm_num))
  have ho_85 : generate_opening_offer
      { ctx with current_round := ((0:ℕ) : ℤ) + 1 } ≤ pyMulDiv b 85 100 := by
    simp only [generate_opening_offer]
    rw [← hbud]
    exact min_le_right _ _
  have ho_C : generate_opening_offer
      { ctx with current_round := ((0:ℕ) : ℤ) + 1 } ≤ pyMulDiv b 95 100 :=
    le_trans ho_85 (pyMulDiv_mono_num (by norm_num) hb0 (by norm_num) (by norm_num))
  constructor
  · intro r hr
    simp only [loopStep, if_true] at hr
    by_cases ho : 0 < generate_opening_offer
        { ctx with current_round := ((0:ℕ) : ℤ) + 1 }
    · rw [if_pos ho] at hr
      rw [if_neg (show ¬(DealStatus.ONGOING = DealStatus.ACCEPTED) by decide)] at hr
      rw [if_neg (show ¬(generate_opening_offer
        { ctx with current_round := ((0:ℕ) : ℤ) + 1 } = 0) by omega)] at hr
      rcases hacc : (respond_to_buyer seller
          (generate_opening_offer { ctx with current_round := ((0:ℕ) : ℤ) + 1 })
          (((0:ℕ) : ℤ) + 1)).2.2 with _ | _
      · rw [hacc] at hr
        rw [if_neg (show ¬(false = true) by decide)] at hr
        exact Sum.noConfusion hr
      · rw [hacc] at hr
        rw [if_pos rfl] at hr
        injection hr with hr
        subst hr
        constructor
        · show List.Chain' (· ≤ ·) (ctx.your_offers ++
            [generate_opening_offer { ctx with current_round := ((0:ℕ) : ℤ) + 1 }])
          rw [hoff, List.nil_append]
          exact List.chain'_singleton _
        · show List.Chain' (· < ·) ((ctx.your_offers ++
            [generate_opening_offer
              { ctx with current_round := ((0:ℕ) : ℤ) + 1 }]).take 7)
          rw [hoff, List.nil_append, List.take_of_length_le (by simp)]
          exact List.chain'_singleton _
    · have ho0 : generate_opening_offer
          { ctx with current_round := ((0:ℕ) : ℤ) + 1 } = 0 := by omega
      rw [if_neg ho] at hr
      rw [if_neg (show ¬(DealStatus.ONGOING = DealStatus.ACCEPTED) by decide)] at hr
      rw [if_pos ho0] at hr
      injection hr with hr
      subst hr
      constructor
      · show List.Chain' (· ≤ ·) ctx.your_offers
        rw [hoff]
        exact List.chain'_nil
      · show List.Chain' (· < ·) (ctx.your_offers.take 7)
        rw [hoff]
        exact List.chain'_nil
  · intro a' ctx' sp' sm' hr
    simp only [loopStep, if_true] at hr
    by_cases ho : 0 < generate_opening_offer
        { ctx with current_round := ((0:ℕ) : ℤ) + 1 }
    · rw [if_pos ho] at hr
      rw [if_neg (show ¬(DealStatus.ONGOING = DealStatus.ACCEPTED) by decide)] at hr
      rw [if_neg (show ¬(generate_opening_offer
        { ctx with current_round := ((0:ℕ) : ℤ) + 1 } = 0) by omega)] at hr
      rcases hacc : (respond_to_buyer seller
          (generate_opening_offer { ctx with current_round := ((0:ℕ) : ℤ) + 1 })
          (((0:ℕ) : ℤ) + 1)).2.2 with _ | _
      swap
      · rw [hacc] at hr
        rw [if_pos rfl] at hr
        exact Sum.noConfusion hr
      · rw [hacc] at hr
        rw [if_neg (show ¬(false = true) by decide)] at hr
        simp only [Sum.inr.injEq, Prod.mk.injEq] at hr
        obtain ⟨hA, hC, hS, hM⟩ := hr
        subst hC
        subst hS
        subst hM
        have hglast : (ctx.your_offers ++
            [generate_opening_offer
              { ctx with current_round := ((0:ℕ) : ℤ) + 1 }]).getLast? =
            some (generate_opening_offer
              { ctx with current_round := ((0:ℕ) : ℤ) + 1 }) :=
          List.getLast?_concat _
        have RB := respond_to_buyer_counter seller
          (generate_opening_offer { ctx with current_round := ((0:ℕ) : ℤ) + 1 })
          (((0:ℕ) : ℤ) + 1) hacc
        refine ⟨hbud, hb, le_refl 1, ?_, ?_, ?_, ?_, ?_, ?_, ?_, ?_, RB.1⟩
        · show (ctx.your_offers ++
            [generate_opening_offer
              { ctx with current_round := ((0:ℕ) : ℤ) + 1 }]).length = 1
          rw [hoff, List.nil_append]
          rfl
        · intro x hx
          rcases List.mem_append.mp hx with hx2 | hx2
          · rw [hoff] at hx2
            exact absurd hx2 (List.not_mem_nil x)
          · rw [List.mem_singleton.mp hx2]
            exact ho
        · show List.Chain' (· ≤ ·) (ctx.your_offers ++
            [generate_opening_offer { ctx with current_round := ((0:ℕ) : ℤ) + 1 }])
          rw [hoff, List.nil_append]
          exact List.chain'_singleton _
        · show List.Chain' (· < ·) ((ctx.your_offers ++
            [generate_opening_offer
              { ctx with current_round := ((0:ℕ) : ℤ) + 1 }]).take 7)
          rw [hoff, List.nil_append, List.take_of_length_le (by simp)]
          exact List.chain'_singleton _
        · intro h7
          simp only [hglast, Option.getD_some]
          exact ho_C
        · simp only [hglast, Option.getD_some]
          intro hCo
          omega
        · simp only [hglast, Option.getD_some]
          rcases RB.2 with ⟨h8, hform⟩ | ⟨h8, hforms⟩
          · exact absurd h8 (by omega)
          · exact Or.inr ⟨by omega, hforms⟩
        · intro h2
          exact absurd h2 (by omega)
    · rw [if_neg ho] at hr
      rw [if_neg (show ¬(DealStatus.ONGOING = DealStatus.ACCEPTED) by decide)] at hr
      rw [if_pos (show generate_opening_offer
        { ctx with current_round := ((0:ℕ) : ℤ) + 1 } = 0 by omega)] at hr
      exact Sum.noConfusion hr

/-- Running the loop from any invariant state yields a forward-progressing
offer history, whatever fuel remains. -/
theorem runLoop_inv_ok (seller : MockSellerAgent) (b : ℤ) :
    ∀ (rem i : ℕ) (a : SellerAnalysis) (ctx : NegotiationContext) (sp : ℤ)
      (sm : MsgFeatures), LoopInv seller b i ctx sp sm →
      offers_ok (runLoop seller rem i a ctx sp sm) := by
  intro rem
  induction rem with
  | zero =>
    intro i a ctx sp sm inv
    exact ⟨inv.hchain, inv.hstrict⟩
  | succ n ih =>
    intro i a ctx sp sm inv
    rw [runLoop]
    rcases hstep : loopStep seller i a ctx sp sm with r | ⟨a', ctx', sp', sm'⟩
    · exact (loopStep_ok seller b i a ctx sp sm inv).1 r hstep
    · exact ih (i + 1) a' ctx' sp' sm'
        ((loopStep_ok seller b i a ctx sp sm inv).2 a' ctx' sp' sm' hstep)

/-- C2 (counterexample): the driver-recorded buyer offer sequence is not
always non-decreasing.  With market price 236, budget 243, seller minimum 232
and a standard seller, the run records
[165, 175, 183, 190, 196, 201, 207, 231, 230, 230]: the round-8 final attempt
jumps to 231, above int(budget*0.95) = 230, and the round-9 strategic counter
clamps back to 230 — a regression, with no acceptance and no withdrawal
(the session simply times out). -/
theorem forward_progress_counterexample :
    (run_negotiation_test (gujaratProduct 236) 243 232 "standard"
        standardMsg).your_offers =
      [165, 175, 183, 190, 196, 201, 207, 231, 230, 230] ∧
    (run_negotiation_test (gujaratProduct 236) 243 232 "standard"
        standardMsg).buyer_accepted = false ∧
    (run_negotiation_test (gujaratProduct 236) 243 232 "standard"
        standardMsg).deal_made = false ∧
    ¬ List.Chain' (· ≤ ·)
      (run_negotiation_test (gujaratProduct 236) 243 232 "standard"
        standardMsg).your_offers := by
  have he : (run_negotiation_test (gujaratProduct 236) 243 232 "standard"
      standardMsg).your_offers =
      [165, 175, 183, 190, 196, 201, 207, 231, 230, 230] := by decide
  refine ⟨he, by decide, by decide, ?_⟩
  rw [he]
  norm_num [List.chain'_cons, List.chain'_singleton]

/-- C2 (amended): for budgets of at least 700 and a nonnegative market price,
the recorded buyer offer sequence of a driver session is non-decreasing, and
strictly increasing on the offers recorded during the first seven rounds
(excluding the seller price recorded by the buyer's own acceptance).  The
original unconditional claim is refuted by forward_progress_counterexample:
a round-8 final attempt can exceed int(budget*0.95) while the next seller
counter int(last*1.03) still undercuts the int(budget*0.98) ceiling, which
only happens for budgets in a small window (243-245); at b >= 700 the
escalated offer is close enough to the ceiling that the next counter meets
it, and int(budget*0.015) >= 1 rules out zero-progress repeats. -/
theorem forward_progress_amended (product : Product) (budget seller_min : ℤ)
    (pers : String) (openFeat : MsgFeatures) (hb : 700 ≤ budget)
    (hm : 0 ≤ product.base_market_price) :
    offers_ok (run_negotiation_test product budget seller_min pers openFeat) := by
  simp only [run_negotiation_test]
  rw [show (10:ℕ) = 9 + 1 from rfl, runLoop]
  rcases hstep : loopStep ⟨seller_min, pers⟩ 0 initialAnalysis
      { product := product, your_budget := budget, current_round := 0,
        seller_offers := [get_opening_price ⟨seller_min, pers⟩ product],
        your_offers := [] }
      (get_opening_price ⟨seller_min, pers⟩ product) openFeat with
    r | ⟨a', ctx', sp', sm'⟩
  · exact (loopStep_zero_ok ⟨seller_min, pers⟩ budget initialAnalysis _ _ openFeat
      rfl hb hm rfl).1 r hstep
  · exact runLoop_inv_ok ⟨seller_min, pers⟩ budget 9 1 a' ctx' sp' sm'
      ((loopStep_zero_ok ⟨seller_min, pers⟩ budget initialAnalysis _ _ openFeat
        rfl hb hm rfl).2 a' ctx' sp' sm' hstep)

theorem forward_progress_amended_witness :
    ((700:ℤ) ≤ 168000 ∧ (0:ℤ) ≤ (gujaratProduct 160000).base_market_price) ∧
    offers_ok (run_negotiation_test (gujaratProduct 160000) 168000 136000
      "standard" standardMsg) :=
  ⟨⟨by norm_num, by decide⟩,
    forward_progress_amended (gujaratProduct 160000) 168000 136000 "standard"
      standardMsg (by norm_num) (by decide)⟩
